import Mathlib

/-!
Verification of the mailer-service Go SDK (package `mailersdk`).

The repository contains three near-duplicate revisions of the same thin HTTP
client.  The definitions below are a shallow embedding of that client:

* the JSON machinery models Go's `encoding/json` as used by
  `parseErrorResponse` (the external standard library, embedded faithfully
  for the struct `\x7bmessage, success, status, error\x7d` it is applied to);
* `parseErrorResponse`, `statusIn`, `pathSeg`, `NewClient` and the
  list/get operations are translated line by line from the source
  (`client.go` and the two unnamed revisions);
* the transport (`http.Client.Do` / `hmac.Client.DoRequest`) and the
  response-envelope decoder (`json.Decoder.Decode`) are external effects and
  appear as function parameters; every operation additionally returns the
  list of URLs it handed to the transport, so "number of network calls" and
  "built request URL" are observable.

Go `[]byte` bodies are modelled as `String`, Go `int` / `time.Duration` as
`Int` (nanoseconds for durations).
-/

namespace MailerSdk

/-! ## JSON values and a model of Go `encoding/json` parsing -/

/-- A parsed JSON value.  Numbers keep their literal text, as Go's decoder
decides int-compatibility from the literal. -/
inductive JsonVal where
  | null
  | bool (b : Bool)
  | num (lit : String)
  | str (s : String)
  | arr (elems : List JsonVal)
  | obj (members : List (String × JsonVal))

/-- The character `\x7b` (written via `Char.ofNat` to keep braces out of
literals). -/
def lbrace : Char := Char.ofNat 123

/-- The character `\x7d`. -/
def rbrace : Char := Char.ofNat 125

/-- JSON insignificant whitespace. -/
def isWsChar (c : Char) : Bool := c == ' ' || c == '\t' || c == '\n' || c == '\r'

/-- Skip insignificant whitespace. -/
def skipWs : List Char → List Char
  | [] => []
  | c :: cs => if isWsChar c then skipWs cs else c :: cs

/-- Value of a hexadecimal digit. -/
def hexDigitVal (c : Char) : Option Nat :=
  if '0' ≤ c ∧ c ≤ '9' then some (c.toNat - 48)
  else if 'a' ≤ c ∧ c ≤ 'f' then some (c.toNat - 87)
  else if 'A' ≤ c ∧ c ≤ 'F' then some (c.toNat - 55)
  else none

/-- Parse the remainder of a JSON string literal (the opening quote has been
consumed); `acc` holds the decoded characters in reverse. -/
def parseJString : Nat → List Char → List Char → Option (String × List Char)
  | 0, _, _ => none
  | _ + 1, _, [] => none
  | fuel + 1, acc, c :: cs =>
    if c = '"' then some (⟨acc.reverse⟩, cs)
    else if c = '\\' then
      match cs with
      | [] => none
      | e :: cs2 =>
        if e = '"' then parseJString fuel ('"' :: acc) cs2
        else if e = '\\' then parseJString fuel ('\\' :: acc) cs2
        else if e = '/' then parseJString fuel ('/' :: acc) cs2
        else if e = 'b' then parseJString fuel (Char.ofNat 8 :: acc) cs2
        else if e = 'f' then parseJString fuel (Char.ofNat 12 :: acc) cs2
        else if e = 'n' then parseJString fuel ('\n' :: acc) cs2
        else if e = 'r' then parseJString fuel ('\r' :: acc) cs2
        else if e = 't' then parseJString fuel ('\t' :: acc) cs2
        else if e = 'u' then
          match cs2 with
          | h1 :: h2 :: h3 :: h4 :: cs3 =>
            match hexDigitVal h1, hexDigitVal h2, hexDigitVal h3, hexDigitVal h4 with
            | some a, some b, some x, some d =>
              parseJString fuel (Char.ofNat (a * 4096 + b * 256 + x * 16 + d) :: acc) cs3
            | _, _, _, _ => none
          | _ => none
        else none
    else if c.toNat < 32 then none
    else parseJString fuel (c :: acc) cs

/-- Split a leading run of decimal digits from the input. -/
def takeDigits : List Char → List Char × List Char
  | [] => ([], [])
  | c :: cs =>
    if '0' ≤ c ∧ c ≤ '9' then
      let p := takeDigits cs
      (c :: p.1, p.2)
    else ([], c :: cs)

/-- Parse the optional exponent part of a JSON number; `acc` is the literal
so far. -/
def parseExpPart (acc : List Char) (rest : List Char) : Option (String × List Char) :=
  match rest with
  | [] => some (⟨acc⟩, [])
  | e :: cs =>
    if e = 'e' ∨ e = 'E' then
      let sp : List Char × List Char :=
        match cs with
        | '+' :: t => (['+'], t)
        | '-' :: t => (['-'], t)
        | _ => ([], cs)
      match takeDigits sp.2 with
      | ([], _) => none
      | (ds, rest3) => some (⟨acc ++ [e] ++ sp.1 ++ ds⟩, rest3)
    else some (⟨acc⟩, e :: cs)

/-- Parse the optional fraction and exponent parts of a JSON number. -/
def parseFracExp (acc : List Char) (rest : List Char) : Option (String × List Char) :=
  match rest with
  | '.' :: cs =>
    match takeDigits cs with
    | ([], _) => none
    | (ds, rest2) => parseExpPart (acc ++ '.' :: ds) rest2
  | _ => parseExpPart acc rest

/-- Parse a JSON number literal (JSON grammar: `-?(0|[1-9][0-9]*)` with
optional fraction and exponent). -/
def parseNumberLit (input : List Char) : Option (String × List Char) :=
  let np : List Char × List Char :=
    match input with
    | '-' :: cs => (['-'], cs)
    | _ => ([], input)
  match np.2 with
  | [] => none
  | c :: cs =>
    if c = '0' then parseFracExp (np.1 ++ ['0']) cs
    else if '1' ≤ c ∧ c ≤ '9' then
      let p := takeDigits cs
      parseFracExp (np.1 ++ (c :: p.1)) p.2
    else none

mutual

/-- Parse one JSON value; fuel-based recursion (the fuel chosen by
`jsonParse` always suffices). -/
def parseValue : Nat → List Char → Option (JsonVal × List Char)
  | 0, _ => none
  | fuel + 1, input =>
    match skipWs input with
    | [] => none
    | c :: cs =>
      if c = '"' then
        match parseJString (cs.length + 1) [] cs with
        | some (s, rest) => some (.str s, rest)
        | none => none
      else if c = lbrace then
        match skipWs cs with
        | [] => none
        | d :: ds =>
          if d = rbrace then some (.obj [], ds)
          else
            match parseMembers fuel (d :: ds) with
            | some (ms, rest) => some (.obj ms, rest)
            | none => none
      else if c = '[' then
        match skipWs cs with
        | [] => none
        | d :: ds =>
          if d = ']' then some (.arr [], ds)
          else
            match parseElems fuel (d :: ds) with
            | some (es, rest) => some (.arr es, rest)
            | none => none
      else if c = 't' then
        match cs with
        | 'r' :: 'u' :: 'e' :: rest => some (.bool true, rest)
        | _ => none
      else if c = 'f' then
        match cs with
        | 'a' :: 'l' :: 's' :: 'e' :: rest => some (.bool false, rest)
        | _ => none
      else if c = 'n' then
        match cs with
        | 'u' :: 'l' :: 'l' :: rest => some (.null, rest)
        | _ => none
      else if c = '-' ∨ ('0' ≤ c ∧ c ≤ '9') then
        match parseNumberLit (c :: cs) with
        | some (lit, rest) => some (.num lit, rest)
        | none => none
      else none

/-- Parse the members of a JSON object (first non-whitespace character is the
opening quote of the first key). -/
def parseMembers : Nat → List Char → Option (List (String × JsonVal) × List Char)
  | 0, _ => none
  | fuel + 1, input =>
    match skipWs input with
    | [] => none
    | c :: cs =>
      if c = '"' then
        match parseJString (cs.length + 1) [] cs with
        | some (k, rest1) =>
          match skipWs rest1 with
          | ':' :: rest2 =>
            (match parseValue fuel rest2 with
             | some (v, rest3) =>
               match skipWs rest3 with
               | [] => none
               | d :: rest4 =>
                 if d = ',' then
                   match parseMembers fuel rest4 with
                   | some (ms, rest5) => some ((k, v) :: ms, rest5)
                   | none => none
                 else if d = rbrace then some ([(k, v)], rest4)
                 else none
             | none => none)
          | _ => none
        | none => none
      else none

/-- Parse the elements of a JSON array (non-empty). -/
def parseElems : Nat → List Char → Option (List JsonVal × List Char)
  | 0, _ => none
  | fuel + 1, input =>
    match parseValue fuel input with
    | some (v, rest1) =>
      match skipWs rest1 with
      | ',' :: rest2 =>
        (match parseElems fuel rest2 with
         | some (es, rest3) => some (v :: es, rest3)
         | none => none)
      | ']' :: rest2 => some ([v], rest2)
      | _ => none
    | none => none

end

/-- Parse a whole JSON document: one value and trailing whitespace only.
Models the syntactic acceptance of Go `json.Unmarshal`. -/
def jsonParse (s : String) : Option JsonVal :=
  match parseValue (s.data.length * 2 + 8) s.data with
  | some (v, rest) =>
    match skipWs rest with
    | [] => some v
    | _ => none
  | none => none

/-! ## Model of Go `json.Unmarshal` into the error-response struct

`parseErrorResponse` unmarshals into the anonymous struct
`\x7b Message string; Success bool; Status int; Error string \x7d` with json
tags `message`, `success`, `status`, `error`.  Go field matching is
ASCII-case-insensitive, object members are applied in document order (a later
duplicate key overwrites), a `null` value leaves the field untouched, any
type mismatch makes `Unmarshal` return an error, and unknown keys are
ignored. -/

/-- ASCII lower-casing, for Go's case-insensitive JSON field matching. -/
def asciiLower (c : Char) : Char :=
  if 'A' ≤ c ∧ c ≤ 'Z' then Char.ofNat (c.toNat + 32) else c

/-- ASCII-case-insensitive character-list equality. -/
def foldEqChars : List Char → List Char → Bool
  | [], [] => true
  | x :: xs, y :: ys => asciiLower x == asciiLower y && foldEqChars xs ys
  | _, _ => false

/-- ASCII-case-insensitive string equality (Go JSON field matching). -/
def foldEq (a b : String) : Bool := foldEqChars a.data b.data

/-- Decimal value of a digit list. -/
def digitsVal (acc : Nat) : List Char → Nat
  | [] => acc
  | c :: cs => digitsVal (acc * 10 + (c.toNat - 48)) cs

/-- Go unmarshals a JSON number into an `int` field only when the literal is
a plain base-10 integer (a fraction or exponent is a type error). -/
def parseIntLit (lit : String) : Option Int :=
  match lit.data with
  | '-' :: ds =>
    if ds.isEmpty then none
    else if ds.all Char.isDigit then some (-(Int.ofNat (digitsVal 0 ds)))
    else none
  | ds =>
    if ds.isEmpty then none
    else if ds.all Char.isDigit then some (Int.ofNat (digitsVal 0 ds))
    else none

/-- The anonymous error-response struct of `parseErrorResponse`; defaults are
the Go zero values. -/
structure errorResp where
  message : String := ""
  success : Bool := false
  status : Int := 0
  error : String := ""

/-- Apply one JSON object member to the struct; `none` is a type error. -/
def setField (r : errorResp) (k : String) (v : JsonVal) : Option errorResp :=
  if foldEq k "message" then
    match v with
    | .str s => some { r with message := s }
    | .null => some r
    | _ => none
  else if foldEq k "success" then
    match v with
    | .bool b => some { r with success := b }
    | .null => some r
    | _ => none
  else if foldEq k "status" then
    match v with
    | .num lit =>
      match parseIntLit lit with
      | some n => some { r with status := n }
      | none => none
    | .null => some r
    | _ => none
  else if foldEq k "error" then
    match v with
    | .str s => some { r with error := s }
    | .null => some r
    | _ => none
  else some r

/-- Apply all object members in document order. -/
def applyMembers (r : errorResp) : List (String × JsonVal) → Option errorResp
  | [] => some r
  | (k, v) :: rest =>
    match setField r k v with
    | some r2 => applyMembers r2 rest
    | none => none

/-- Model of `json.Unmarshal(body, &errorResp)`: `some` is a nil error. -/
def unmarshalErrorResp (body : String) : Option errorResp :=
  match jsonParse body with
  | some (.obj ms) => applyMembers {} ms
  | some .null => some {}
  | _ => none

/-! ## `APIError` and `parseErrorResponse` (identical in all three
revisions) -/

/-- Translation of the `APIError` struct. -/
structure APIError where
  StatusCode : Int
  Message : String
  Body : String

/-- Translation of `parseErrorResponse` from the source: unmarshal the body;
if that yields a nil error and `Message` or `Error` is non-empty, prefer
`Error` over `Message`; otherwise use the raw body as the message. -/
def parseErrorResponse (statusCode : Int) (body : String) : APIError :=
  match unmarshalErrorResp body with
  | some r =>
    if r.message ≠ "" ∨ r.error ≠ "" then
      { StatusCode := statusCode
        Message := if r.error = "" then r.message else r.error
        Body := body }
    else
      { StatusCode := statusCode, Message := body, Body := body }
  | none => { StatusCode := statusCode, Message := body, Body := body }

/-- Written from the spec's words, for comparison with `parseErrorResponse`:
"Preference order for the human-readable message: `error` field if
non-empty, else `message` field, else the raw body text." -/
def specPreferredMessage (body : String) : String :=
  match unmarshalErrorResp body with
  | some r =>
    if r.error ≠ "" then r.error
    else if r.message ≠ "" then r.message
    else body
  | none => body

/-! ## URL escaping (model of Go `net/url`), `pathSeg`, and
`strings.TrimRight` -/

/-- Upper-case hexadecimal digit, as Go's `"0123456789ABCDEF"` table. -/
def hexUpper (n : Nat) : Char :=
  if n < 10 then Char.ofNat (48 + n) else Char.ofNat (55 + n)

/-- UTF-8 bytes of one character (Go strings are UTF-8; escaping works
byte-wise). -/
def charUtf8 (c : Char) : List Nat :=
  let n := c.toNat
  if n < 128 then [n]
  else if n < 2048 then [192 + n / 64, 128 + n % 64]
  else if n < 65536 then [224 + n / 4096, 128 + (n / 64) % 64, 128 + n % 64]
  else [240 + n / 262144, 128 + (n / 4096) % 64, 128 + (n / 64) % 64, 128 + n % 64]

/-- UTF-8 bytes of a character list. -/
def utf8Bytes : List Char → List Nat
  | [] => []
  | c :: cs => charUtf8 c ++ utf8Bytes cs

/-- Bytes Go's `shouldEscape` keeps unescaped in a path segment
(`encodePathSegment`): alphanumerics, `-._~`, and of the reserved set
`$&+,/:;=?@` all but `/ ; , ?`. -/
def pathSegKeep (b : Nat) : Bool :=
  decide ((97 ≤ b ∧ b ≤ 122) ∨ (65 ≤ b ∧ b ≤ 90) ∨ (48 ≤ b ∧ b ≤ 57) ∨
    b = 45 ∨ b = 95 ∨ b = 46 ∨ b = 126 ∨
    b = 36 ∨ b = 38 ∨ b = 43 ∨ b = 58 ∨ b = 61 ∨ b = 64)

/-- Escape one byte for a path segment. -/
def escapeByteSeg (b : Nat) : List Char :=
  if pathSegKeep b then [Char.ofNat b]
  else ['%', hexUpper (b / 16), hexUpper (b % 16)]

/-- Escape a byte list for a path segment. -/
def escapeBytesSeg : List Nat → List Char
  | [] => []
  | b :: bs => escapeByteSeg b ++ escapeBytesSeg bs

/-- Model of `url.PathEscape`. -/
def PathEscape (s : String) : String := ⟨escapeBytesSeg (utf8Bytes s.data)⟩

/-- Translation of `pathSeg` from the source: `url.PathEscape`. -/
def pathSeg (s : String) : String := PathEscape s

/-- Bytes Go's `shouldEscape` keeps unescaped in a query component
(`encodeQueryComponent`): alphanumerics and `-._~` only. -/
def queryKeep (b : Nat) : Bool :=
  decide ((97 ≤ b ∧ b ≤ 122) ∨ (65 ≤ b ∧ b ≤ 90) ∨ (48 ≤ b ∧ b ≤ 57) ∨
    b = 45 ∨ b = 95 ∨ b = 46 ∨ b = 126)

/-- Escape one byte for a query component; space becomes `+`. -/
def escapeByteQuery (b : Nat) : List Char :=
  if queryKeep b then [Char.ofNat b]
  else if b = 32 then ['+']
  else ['%', hexUpper (b / 16), hexUpper (b % 16)]

/-- Escape a byte list for a query component. -/
def escapeBytesQuery : List Nat → List Char
  | [] => []
  | b :: bs => escapeByteQuery b ++ escapeBytesQuery bs

/-- Model of `url.QueryEscape`. -/
def QueryEscape (s : String) : String := ⟨escapeBytesQuery (utf8Bytes s.data)⟩

/-- Model of `strings.TrimRight(s, "/")`: drop every trailing slash. -/
def trimRightSlashes (s : String) : String :=
  ⟨(s.data.reverse.dropWhile (fun c => c == '/')).reverse⟩

/-- Model of `strings.Join(elems, sep)`. -/
def stringsJoin (sep : String) : List String → String
  | [] => ""
  | [x] => x
  | x :: xs => x ++ sep ++ stringsJoin sep xs

/-! ## Transport abstraction, errors, and the shared `do` helper

The transport (`http.Client.Do` after `http.NewRequestWithContext`, or
`hmac.Client.DoRequest`) is an external effect: it is a parameter mapping
(context, method, URL) to either an error or a delivered response.  The
context type is a type parameter, so the theorems quantify over every
context.  The response-envelope decoder (`json.NewDecoder(...).Decode` /
`hmac.ParseJSONResponse`) is likewise a parameter. -/

/-- What the transport delivers: status code and (readable) body. -/
structure Response where
  statusCode : Int
  body : String

/-- The transport capability; `γ` is the caller's context type. -/
def Transport (γ : Type) : Type := γ → String → String → Except String Response

/-- A JSON decoder for a result type. -/
def Dec (α : Type) : Type := String → Except String α

/-- Go error values produced by the client, keeping the wrapping structure
of `fmt.Errorf("%s: %w", wrapErr, err)`. -/
inductive GoError where
  | errorf (msg : String)
  | transportFail (msg : String)
  | decodeFail (msg : String)
  | wrap (msg : String) (cause : GoError)
  | apiError (e : APIError)

/-- Translation of `IsAPIError` / `errors.As`: find an `APIError` in the
wrapping chain. -/
def asAPIError : GoError → Option APIError
  | .apiError e => some e
  | .wrap _ cause => asAPIError cause
  | _ => none

/-- Translation of `statusIn` from the source. -/
def statusIn (code : Int) : List Int → Bool
  | [] => false
  | c :: cs => if code = c then true else statusIn code cs

/-- Translation of the shared `do` helper (named `doCall` since `do` is
reserved in Lean): perform the request, check the status against
`successStatuses`, on failure read the body into `parseErrorResponse`, on
success decode into the result when one is supplied.  The second component
records the URLs handed to the transport. -/
def doCall {γ α : Type} (t : Transport γ) (ctx : γ) (method url : String)
    (successStatuses : List Int) (result : Option (Dec α)) (wrapErr : String) :
    Except GoError (Option α) × List String :=
  match t ctx method url with
  | .error e => (.error (.wrap wrapErr (.transportFail e)), [url])
  | .ok resp =>
    if statusIn resp.statusCode successStatuses then
      match result with
      | some dec =>
        match dec resp.body with
        | .error e => (.error (.wrap wrapErr (.decodeFail e)), [url])
        | .ok v => (.ok (some v), [url])
      | none => (.ok none, [url])
    else (.error (.apiError (parseErrorResponse resp.statusCode resp.body)), [url])

/-! ## Construction -/

/-- Fixed API prefix (`apiPathPrefix` in the source). -/
def apiPathPrefix : String := "/api/v1"

/-- Default timeout: 10 seconds in nanoseconds (`10 * time.Second`). -/
def defaultTimeout : Int := 10000000000

/-- Translation of `Config` (plain-HTTP revisions). -/
structure Config where
  BaseURL : String
  Timeout : Int

/-- Translation of `Client` (plain-HTTP revisions); `timeout` models the
`http.Client\x7bTimeout: timeout\x7d` handed to the transport. -/
structure Client where
  baseURL : String
  timeout : Int

/-- Translation of `NewClient` (plain-HTTP revisions): reject an empty base
URL, strip trailing slashes, default the timeout when it is zero. -/
def NewClient (config : Config) : Option Client × Option GoError :=
  if config.BaseURL = "" then (none, some (.errorf "base URL is required"))
  else
    (some
      { baseURL := trimRightSlashes config.BaseURL
        timeout := if config.Timeout = 0 then defaultTimeout else config.Timeout },
     none)

/-- Translation of `Config` from the HMAC revision (`client.go`). -/
structure ConfigHMAC where
  BaseURL : String
  HMACSecret : String
  Timeout : Int

/-- The HMAC revision's client holds an `hmac.Client` built from these
values. -/
structure ClientHMAC where
  baseURL : String
  hmacSecret : String
  timeout : Int

/-- Translation of `NewClient` from the HMAC revision (`client.go`): also
rejects an empty HMAC secret (named `NewClientHMAC` as both revisions share
one Lean file). -/
def NewClientHMAC (config : ConfigHMAC) : Option ClientHMAC × Option GoError :=
  if config.BaseURL = "" then (none, some (.errorf "base URL is required"))
  else if config.HMACSecret = "" then (none, some (.errorf "HMAC secret is required"))
  else
    (some
      { baseURL := trimRightSlashes config.BaseURL
        hmacSecret := config.HMACSecret
        timeout := if config.Timeout = 0 then defaultTimeout else config.Timeout },
     none)

/-! ## Data-transfer records (translations of the response structs) -/

/-- Translation of `Pagination`. -/
structure Pagination where
  Page : Int
  PerPage : Int
  Total : Int
  TotalPages : Int
  HasNext : Bool
  HasPrevious : Bool
  NextPage : Option Int
  PreviousPage : Option Int

/-- Translation of `AttachmentListItem`. -/
structure AttachmentListItem where
  ID : String
  MailID : String
  File : String
  CreatedAt : String
  UpdatedAt : String

/-- Translation of `MailListItem`; the free-form `map[string]interface\x7b\x7d`
payload is a JSON object. -/
structure MailListItem where
  ID : String
  Service : String
  Type' : String
  To : String
  Subject : String
  Template : String
  Data : List (String × JsonVal)
  Status : String
  Error : String
  Attachments : List AttachmentListItem
  CreatedAt : String
  UpdatedAt : String

/-- Translation of `TemplateListItem`. -/
structure TemplateListItem where
  ID : String
  Name : String
  Content : String
  Description : String
  IsActive : Bool
  CreatedAt : String
  UpdatedAt : String

/-- Translation of `ListMailsResponse`. -/
structure ListMailsResponse where
  Success : Bool
  Message : String
  Status : Int
  Timestamp : String
  Data : List MailListItem
  Pagination : Option Pagination

/-- Translation of `GetMailResponse`. -/
structure GetMailResponse where
  Success : Bool
  Message : String
  Status : Int
  Timestamp : String
  Data : MailListItem

/-- Translation of `ListTemplatesResponse`. -/
structure ListTemplatesResponse where
  Success : Bool
  Message : String
  Status : Int
  Timestamp : String
  Data : List TemplateListItem
  Pagination : Option Pagination

/-- Translation of `GetTemplateResponse`. -/
structure GetTemplateResponse where
  Success : Bool
  Message : String
  Status : Int
  Timestamp : String
  Data : TemplateListItem

/-- Translation of `ListAttachmentsResponse`. -/
structure ListAttachmentsResponse where
  Success : Bool
  Message : String
  Status : Int
  Timestamp : String
  Data : List AttachmentListItem
  Pagination : Option Pagination

/-- Translation of `GetAttachmentResponse`. -/
structure GetAttachmentResponse where
  Success : Bool
  Message : String
  Status : Int
  Timestamp : String
  Data : AttachmentListItem

/-- Translation of `ListMailsRequest` (structured-filter revision). -/
structure ListMailsRequest where
  Page : Int
  PerPage : Int
  Service : String
  Type' : String
  Status : String

/-- Translation of `ListTemplatesRequest`. -/
structure ListTemplatesRequest where
  Page : Int
  PerPage : Int

/-- Translation of `ListAttachmentsRequest`. -/
structure ListAttachmentsRequest where
  Page : Int
  PerPage : Int
  MailID : String

end MailerSdk

namespace MailerSdk

/-! ## Operations

Each operation is translated from the source; it returns the Go result pair
`(result pointer, error)` together with the list of URLs handed to the
transport (empty when the operation returned before any network call). -/

/-- The tail every operation repeats in the source:
`if err != nil { return nil, err }; return &result, nil`. -/
def handleDo {α : Type} :
    Except GoError (Option α) × List String → (Option α × Option GoError) × List String
  | (.error e, log) => ((none, some e), log)
  | (.ok v, log) => ((v, none), log)

/-- Translation of the structured-filter `ListMails`. -/
def ListMails {γ : Type} (c : Client) (t : Transport γ) (dec : Dec ListMailsResponse)
    (ctx : γ) (req : ListMailsRequest) :
    (Option ListMailsResponse × Option GoError) × List String :=
  let qp0 : List String := []
  let qp1 := if req.Page > 0 then qp0 ++ ["page=" ++ toString req.Page] else qp0
  let qp2 := if req.PerPage > 0 then qp1 ++ ["per_page=" ++ toString req.PerPage] else qp1
  let qp3 := if req.Service ≠ "" then qp2 ++ ["service=" ++ QueryEscape req.Service] else qp2
  let qp4 := if req.Type' ≠ "" then qp3 ++ ["type=" ++ QueryEscape req.Type'] else qp3
  let qp5 := if req.Status ≠ "" then qp4 ++ ["status=" ++ QueryEscape req.Status] else qp4
  let path0 := c.baseURL ++ apiPathPrefix ++ "/mails"
  let path := if qp5.length > 0 then path0 ++ "?" ++ stringsJoin "&" qp5 else path0
  handleDo (doCall t ctx "GET" path [200] (some dec) "failed to list mails")

/-- Translation of `ListMailsWithQuery` (raw query-string form; also the
`ListMails` of the other two revisions). -/
def ListMailsWithQuery {γ : Type} (c : Client) (t : Transport γ) (dec : Dec ListMailsResponse)
    (ctx : γ) (queryString : String) :
    (Option ListMailsResponse × Option GoError) × List String :=
  let path0 := c.baseURL ++ apiPathPrefix ++ "/mails"
  let path := if queryString ≠ "" then path0 ++ "?" ++ queryString else path0
  handleDo (doCall t ctx "GET" path [200] (some dec) "failed to list mails")

/-- Translation of `GetMail`. -/
def GetMail {γ : Type} (c : Client) (t : Transport γ) (dec : Dec GetMailResponse)
    (ctx : γ) (id : String) :
    (Option GetMailResponse × Option GoError) × List String :=
  if id = "" then ((none, some (.errorf "mail id is required")), [])
  else
    let path := c.baseURL ++ apiPathPrefix ++ "/mails/" ++ pathSeg id
    handleDo (doCall t ctx "GET" path [200] (some dec) "failed to get mail")

/-- Translation of the structured `ListTemplates`. -/
def ListTemplates {γ : Type} (c : Client) (t : Transport γ) (dec : Dec ListTemplatesResponse)
    (ctx : γ) (req : ListTemplatesRequest) :
    (Option ListTemplatesResponse × Option GoError) × List String :=
  let qp0 : List String := []
  let qp1 := if req.Page > 0 then qp0 ++ ["page=" ++ toString req.Page] else qp0
  let qp2 := if req.PerPage > 0 then qp1 ++ ["per_page=" ++ toString req.PerPage] else qp1
  let path0 := c.baseURL ++ apiPathPrefix ++ "/templates"
  let path := if qp2.length > 0 then path0 ++ "?" ++ stringsJoin "&" qp2 else path0
  handleDo (doCall t ctx "GET" path [200] (some dec) "failed to list templates")

/-- Translation of `ListTemplatesWithQuery`. -/
def ListTemplatesWithQuery {γ : Type} (c : Client) (t : Transport γ) (dec : Dec ListTemplatesResponse)
    (ctx : γ) (queryString : String) :
    (Option ListTemplatesResponse × Option GoError) × List String :=
  let path0 := c.baseURL ++ apiPathPrefix ++ "/templates"
  let path := if queryString ≠ "" then path0 ++ "?" ++ queryString else path0
  handleDo (doCall t ctx "GET" path [200] (some dec) "failed to list templates")

/-- Translation of `GetTemplate`. -/
def GetTemplate {γ : Type} (c : Client) (t : Transport γ) (dec : Dec GetTemplateResponse)
    (ctx : γ) (id : String) :
    (Option GetTemplateResponse × Option GoError) × List String :=
  if id = "" then ((none, some (.errorf "template id is required")), [])
  else
    let path := c.baseURL ++ apiPathPrefix ++ "/templates/" ++ pathSeg id
    handleDo (doCall t ctx "GET" path [200] (some dec) "failed to get template")

/-- Translation of the structured `ListAttachments`. -/
def ListAttachments {γ : Type} (c : Client) (t : Transport γ) (dec : Dec ListAttachmentsResponse)
    (ctx : γ) (req : ListAttachmentsRequest) :
    (Option ListAttachmentsResponse × Option GoError) × List String :=
  let qp0 : List String := []
  let qp1 := if req.Page > 0 then qp0 ++ ["page=" ++ toString req.Page] else qp0
  let qp2 := if req.PerPage > 0 then qp1 ++ ["per_page=" ++ toString req.PerPage] else qp1
  let qp3 := if req.MailID ≠ "" then qp2 ++ ["mail_id=" ++ QueryEscape req.MailID] else qp2
  let path0 := c.baseURL ++ apiPathPrefix ++ "/attachments"
  let path := if qp3.length > 0 then path0 ++ "?" ++ stringsJoin "&" qp3 else path0
  handleDo (doCall t ctx "GET" path [200] (some dec) "failed to list attachments")

/-- Translation of `ListAttachmentsWithQuery`. -/
def ListAttachmentsWithQuery {γ : Type} (c : Client) (t : Transport γ) (dec : Dec ListAttachmentsResponse)
    (ctx : γ) (queryString : String) :
    (Option ListAttachmentsResponse × Option GoError) × List String :=
  let path0 := c.baseURL ++ apiPathPrefix ++ "/attachments"
  let path := if queryString ≠ "" then path0 ++ "?" ++ queryString else path0
  handleDo (doCall t ctx "GET" path [200] (some dec) "failed to list attachments")

/-- Translation of `GetAttachment`. -/
def GetAttachment {γ : Type} (c : Client) (t : Transport γ) (dec : Dec GetAttachmentResponse)
    (ctx : γ) (id : String) :
    (Option GetAttachmentResponse × Option GoError) × List String :=
  if id = "" then ((none, some (.errorf "attachment id is required")), [])
  else
    let path := c.baseURL ++ apiPathPrefix ++ "/attachments/" ++ pathSeg id
    handleDo (doCall t ctx "GET" path [200] (some dec) "failed to get attachment")

end MailerSdk

namespace MailerSdk

/-! ## Helper lemmas -/

/-- `doCall` hands exactly its one URL to the transport. -/
lemma doCall_log {γ α : Type} (t : Transport γ) (ctx : γ) (method url : String)
    (ss : List Int) (r : Option (Dec α)) (w : String) :
    (doCall t ctx method url ss r w).2 = [url] := by
  unfold doCall
  cases h : t ctx method url with
  | error e => rfl
  | ok resp =>
    by_cases hs : statusIn resp.statusCode ss
    · simp only [hs, if_true]
      cases r with
      | none => rfl
      | some dec => cases hd : dec resp.body <;> simp [hd]
    · simp [hs]

/-- The second component of `handleDo` is the log unchanged. -/
lemma handleDo_snd {α : Type} (r : Except GoError (Option α) × List String) :
    (handleDo r).2 = r.2 := by
  rcases r with ⟨r1, log⟩
  cases r1 <;> rfl

/-- With a decoder supplied, a successful `doCall` always carries a value. -/
lemma doCall_ok_isSome {γ α : Type} (t : Transport γ) (ctx : γ) (method url : String)
    (ss : List Int) (dec : Dec α) (w : String) (v : Option α)
    (h : (doCall t ctx method url ss (some dec) w).1 = .ok v) : v.isSome := by
  unfold doCall at h
  cases ht : t ctx method url with
  | error e => rw [ht] at h; simp at h
  | ok resp =>
    rw [ht] at h
    by_cases hs : statusIn resp.statusCode ss
    · simp only [hs, if_true] at h
      cases hd : dec resp.body with
      | error e => rw [hd] at h; simp at h
      | ok x => rw [hd] at h; simp at h; rw [← h]; rfl
    · simp [hs] at h

end MailerSdk

namespace MailerSdk

/-! ## Claim theorems -/

/-- Claim C1: for every HTTP status code and every response body,
`parseErrorResponse` derives the `APIError`'s `Message` by the spec's
preference order — the JSON `error` field if it parses and is non-empty,
else the JSON `message` field if it parses and is non-empty, else the raw
body text; in particular `\x7b"error":"X","message":"Y"\x7d` yields `X`,
`\x7b"message":"Y"\x7d` yields `Y`, and the unparseable body `oops` yields
`oops`. -/
theorem parseErrorResponse_message_preference :
    (∀ (statusCode : Int) (body : String),
       (parseErrorResponse statusCode body).Message = specPreferredMessage body)
  ∧ (parseErrorResponse 500 "\x7b\"error\":\"X\",\"message\":\"Y\"\x7d").Message = "X"
  ∧ (parseErrorResponse 404 "\x7b\"message\":\"Y\"\x7d").Message = "Y"
  ∧ (parseErrorResponse 500 "oops").Message = "oops" := by
  refine ⟨?_, by decide, by decide, by decide⟩
  intro statusCode body
  unfold parseErrorResponse specPreferredMessage
  cases h : unmarshalErrorResp body with
  | none => rfl
  | some r =>
    by_cases he : r.error = "" <;> by_cases hm : r.message = "" <;> simp [he, hm]

/-- Claim C2: for every context (type and value) and every transport,
`GetMail`, `GetTemplate` and `GetAttachment` called with the empty id return
a nil result and a local validation error naming the missing field, and the
transport is never invoked (the URL log is empty). -/
theorem get_ops_empty_id_validation {γ : Type} (c : Client) (t : Transport γ)
    (ctx : γ) (decM : Dec GetMailResponse) (decT : Dec GetTemplateResponse)
    (decA : Dec GetAttachmentResponse) :
    GetMail c t decM ctx "" = ((none, some (.errorf "mail id is required")), [])
  ∧ GetTemplate c t decT ctx "" = ((none, some (.errorf "template id is required")), [])
  ∧ GetAttachment c t decA ctx "" = ((none, some (.errorf "attachment id is required")), []) :=
  ⟨rfl, rfl, rfl⟩

end MailerSdk

namespace MailerSdk

/-! ## Concrete fixtures for witnesses and counterexamples -/

/-- The unit context value. -/
def ctxU : Unit := ()

/-- A transport whose request always fails (so no aspect of a response can
influence a result). -/
def tNone : Transport Unit := fun _ _ _ => .error "no network"

/-- A transport that always delivers the given response. -/
def tResp (code : Int) (body : String) : Transport Unit := fun _ _ _ => .ok ⟨code, body⟩

/-- A decoder that always fails. -/
def decFail (α : Type) : Dec α := fun _ => .error "decode failure"

/-- A decoder that always succeeds with the given value. -/
def decConst {α : Type} (v : α) : Dec α := fun _ => .ok v

/-- A concrete client. -/
def cW : Client := { baseURL := "http://h:1", timeout := defaultTimeout }

/-- Spec-side rendering of the structured mail filters, following the spec's
words as amended: a numeric field contributes its parameter only when
strictly positive, a string field only when non-empty, in the fixed order
page, per_page, service, type, status, string values query-escaped. -/
def renderMailsQuery (req : ListMailsRequest) : String :=
  let ps := (if req.Page > 0 then ["page=" ++ toString req.Page] else [])
    ++ (if req.PerPage > 0 then ["per_page=" ++ toString req.PerPage] else [])
    ++ (if req.Service ≠ "" then ["service=" ++ QueryEscape req.Service] else [])
    ++ (if req.Type' ≠ "" then ["type=" ++ QueryEscape req.Type'] else [])
    ++ (if req.Status ≠ "" then ["status=" ++ QueryEscape req.Status] else [])
  if ps = [] then "" else "?" ++ stringsJoin "&" ps

/-- Claim C3 (counterexample): the claim says the query parameters included
are exactly those whose field is not at its zero value; but for
`Page = -1` — not the zero value of `int` — the structured `ListMails`
builds the bare path `/api/v1/mails`, omitting `page=-1`. -/
theorem listMails_negative_page_counterexample :
    (ListMails cW tNone (decFail ListMailsResponse) ctxU
        { Page := -1, PerPage := 0, Service := "", Type' := "", Status := "" }).2
      = ["http://h:1/api/v1/mails"]
  ∧ ¬ ((-1 : Int) = 0)
  ∧ (ListMails cW tNone (decFail ListMailsResponse) ctxU
        { Page := -1, PerPage := 0, Service := "", Type' := "", Status := "" }).2
      ≠ ["http://h:1/api/v1/mails?page=-1"] := by
  refine ⟨rfl, by decide, by decide⟩

end MailerSdk

namespace MailerSdk

/-- The single URL the structured `ListMails` hands to the transport. -/
lemma ListMails_log {γ : Type} (c : Client) (t : Transport γ) (dec : Dec ListMailsResponse)
    (ctx : γ) (req : ListMailsRequest) :
    (ListMails c t dec ctx req).2
      = [c.baseURL ++ apiPathPrefix ++ "/mails" ++ renderMailsQuery req] := by
  simp only [ListMails, handleDo_snd, doCall_log]
  have hq : ∀ x : String, ("/mails" : String) ++ ("?" ++ x) = ("/mails" ++ "?") ++ x :=
    fun x => (String.append_assoc "/mails" "?" x).symm
  by_cases h1 : req.Page > 0 <;> by_cases h2 : req.PerPage > 0 <;>
    by_cases h3 : req.Service = "" <;> by_cases h4 : req.Type' = "" <;>
    by_cases h5 : req.Status = "" <;>
    simp [renderMailsQuery, h1, h2, h3, h4, h5, stringsJoin, String.append_assoc,
      String.append_empty, hq]

/-- Claim C3 (amended): the structured `ListMails` appends, in the fixed
order page, per_page, service, type, status, exactly those query parameters
whose numeric field is strictly positive or whose string field is non-empty
(a negative number, like the zero value, is omitted), query-escaping each
string value; with all fields at their zero value the path is exactly
`/api/v1/mails` with no trailing question mark, and with `Page = 2`,
`PerPage = 50` it is exactly `/api/v1/mails?page=2&per_page=50`. -/
theorem listMails_query_building {γ : Type} (c : Client) (t : Transport γ)
    (dec : Dec ListMailsResponse) (ctx : γ) (req : ListMailsRequest) :
    (ListMails c t dec ctx req).2
      = [c.baseURL ++ apiPathPrefix ++ "/mails" ++ renderMailsQuery req]
  ∧ (ListMails c t dec ctx { Page := 0, PerPage := 0, Service := "", Type' := "", Status := "" }).2
      = [c.baseURL ++ "/api/v1/mails"]
  ∧ (ListMails c t dec ctx { Page := 2, PerPage := 50, Service := "", Type' := "", Status := "" }).2
      = [c.baseURL ++ "/api/v1/mails?page=2&per_page=50"] := by
  refine ⟨ListMails_log c t dec ctx req, ?_, ?_⟩
  · rw [ListMails_log]
    have h : renderMailsQuery { Page := 0, PerPage := 0, Service := "", Type' := "", Status := "" } = "" := rfl
    rw [h, String.append_empty]
    simp only [apiPathPrefix, String.append_assoc]
    have h2 : ("/api/v1" : String) ++ "/mails" = "/api/v1/mails" := rfl
    rw [h2]
  · rw [ListMails_log]
    have h : renderMailsQuery { Page := 2, PerPage := 50, Service := "", Type' := "", Status := "" }
        = "?page=2&per_page=50" := rfl
    rw [h]
    simp only [apiPathPrefix, String.append_assoc]
    have h2 : ("/api/v1" : String) ++ ("/mails" ++ "?page=2&per_page=50")
        = "/api/v1/mails?page=2&per_page=50" := rfl
    rw [h2]

end MailerSdk

namespace MailerSdk

/-- Both branches of `parseErrorResponse` keep the status code and the raw
body verbatim. -/
lemma parseErrorResponse_fields (sc : Int) (body : String) :
    (parseErrorResponse sc body).StatusCode = sc
  ∧ (parseErrorResponse sc body).Body = body := by
  unfold parseErrorResponse
  cases unmarshalErrorResp body with
  | none => exact ⟨rfl, rfl⟩
  | some r =>
    by_cases h : r.message ≠ "" ∨ r.error ≠ "" <;> simp [h]

/-- Claim C4: when the transport delivers a response, the call produces an
`APIError` exactly when the status is outside the accepted set; on an
accepted status the body is decoded into the supplied result and a decode
failure becomes a wrapped error (not an `APIError`); on a non-accepted
status a structured `APIError` from the full body is returned.  The final
conjunct: the accepted set `[200]` used by every operation accepts exactly
status 200. -/
theorem doCall_status_branching {γ α : Type} (t : Transport γ) (ctx : γ)
    (method url : String) (ss : List Int) (dec : Dec α) (w : String)
    (resp : Response) (code : Int)
    (hresp : t ctx method url = .ok resp) :
    ((∃ e, (doCall t ctx method url ss (some dec) w).1 = .error (.apiError e))
        ↔ statusIn resp.statusCode ss = false)
  ∧ ((doCall t ctx method url ss (some dec) w).1
      = if statusIn resp.statusCode ss then
          (match dec resp.body with
           | .ok v => .ok (some v)
           | .error emsg => .error (.wrap w (.decodeFail emsg)))
        else .error (.apiError (parseErrorResponse resp.statusCode resp.body)))
  ∧ (statusIn code [200] = true ↔ code = 200) := by
  have hd1 : (doCall t ctx method url ss (some dec) w).1
      = if statusIn resp.statusCode ss then
          (match dec resp.body with
           | .ok v => .ok (some v)
           | .error emsg => .error (.wrap w (.decodeFail emsg)))
        else .error (.apiError (parseErrorResponse resp.statusCode resp.body)) := by
    unfold doCall
    rw [hresp]
    by_cases hs : statusIn resp.statusCode ss
    · cases hdc : dec resp.body <;> simp [hs, hdc]
    · simp [hs]
  refine ⟨?_, hd1, ?_⟩
  · rw [hd1]
    by_cases hs : statusIn resp.statusCode ss
    · simp only [hs, if_true]
      cases hdc : dec resp.body <;> simp [hs]
    · simp [hs]
  · by_cases hc : code = 200 <;> simp [statusIn, hc]

/-- Witness for C4 at a concrete rejected response (status 404 against the
accepted set `[200]`). -/
theorem doCall_status_branching_witness :
    (tResp 404 "nope" ctxU "GET" "/u" = .ok { statusCode := 404, body := "nope" })
  ∧ (∃ e, (doCall (tResp 404 "nope") ctxU "GET" "/u" [200] (some (decFail Nat))
        "failed").1 = .error (.apiError e)) :=
  ⟨rfl,
   ((doCall_status_branching (tResp 404 "nope") ctxU "GET" "/u" [200] (decFail Nat)
      "failed" { statusCode := 404, body := "nope" } 404 rfl).1).mpr (by decide)⟩

/-- Claim C5: for every non-accepted status and every body, the `APIError`
returned by the shared helper has `StatusCode` equal to the HTTP status
received and `Body` equal to the exact bytes of the response body, in every
message-derivation branch. -/
theorem doCall_apiError_preserves {γ α : Type} (t : Transport γ) (ctx : γ)
    (method url : String) (ss : List Int) (r : Option (Dec α)) (w : String)
    (resp : Response)
    (h1 : t ctx method url = .ok resp)
    (h2 : statusIn resp.statusCode ss = false) :
    (doCall t ctx method url ss r w).1
      = .error (.apiError (parseErrorResponse resp.statusCode resp.body))
  ∧ (parseErrorResponse resp.statusCode resp.body).StatusCode = resp.statusCode
  ∧ (parseErrorResponse resp.statusCode resp.body).Body = resp.body := by
  refine ⟨?_, (parseErrorResponse_fields _ _).1, (parseErrorResponse_fields _ _).2⟩
  unfold doCall
  rw [h1]
  simp [h2]

/-- Witness for C5 at the concrete response 500 / body `oops`. -/
theorem doCall_apiError_preserves_witness :
    (tResp 500 "oops" ctxU "GET" "/u" = .ok { statusCode := 500, body := "oops" })
  ∧ statusIn 500 [200] = false
  ∧ (doCall (tResp 500 "oops") ctxU "GET" "/u" [200] (some (decFail Nat)) "failed").1
      = .error (.apiError (parseErrorResponse 500 "oops")) :=
  ⟨rfl, by decide,
   (doCall_apiError_preserves (tResp 500 "oops") ctxU "GET" "/u" [200]
      (some (decFail Nat)) "failed" { statusCode := 500, body := "oops" } rfl
      (by decide)).1⟩

end MailerSdk

namespace MailerSdk

/-- Every character's scalar value is below the Unicode bound. -/
lemma char_toNat_lt (c : Char) : c.toNat < 1114112 := by
  rcases c.valid with h | ⟨h1, h2⟩
  · exact Nat.lt_trans h (by decide)
  · exact h2

/-- UTF-8 encoding produces bytes. -/
lemma charUtf8_lt (c : Char) : ∀ b ∈ charUtf8 c, b < 256 := by
  intro b hb
  have hc := char_toNat_lt c
  unfold charUtf8 at hb
  by_cases h1 : c.toNat < 128
  · simp [h1] at hb; omega
  · by_cases h2 : c.toNat < 2048
    · simp [h1, h2] at hb
      rcases hb with hb | hb <;> omega
    · by_cases h3 : c.toNat < 65536
      · simp [h1, h2, h3] at hb
        rcases hb with hb | hb | hb <;> omega
      · simp [h1, h2, h3] at hb
        rcases hb with hb | hb | hb | hb <;> omega

/-- UTF-8 encoding of a character list produces bytes. -/
lemma utf8Bytes_lt (cs : List Char) : ∀ b ∈ utf8Bytes cs, b < 256 := by
  induction cs with
  | nil => intro b hb; simp [utf8Bytes] at hb
  | cons c cs ih =>
    intro b hb
    simp only [utf8Bytes, List.mem_append] at hb
    rcases hb with hb | hb
    · exact charUtf8_lt c b hb
    · exact ih b hb

set_option maxRecDepth 10000 in
set_option maxHeartbeats 1000000 in
/-- No byte escapes to a slash in path-segment mode: a kept byte is never
`/` (47 is escaped), and escape sequences consist of `%` and hex digits. -/
lemma escapeByteSeg_no_slash : ∀ b : Nat, b < 256 → ¬ '/' ∈ escapeByteSeg b := by
  decide

/-- A path-segment escaped byte string contains no slash. -/
lemma escapeBytesSeg_no_slash (bs : List Nat) (h : ∀ b ∈ bs, b < 256) :
    ¬ '/' ∈ escapeBytesSeg bs := by
  induction bs with
  | nil => simp [escapeBytesSeg]
  | cons b bs ih =>
    simp only [escapeBytesSeg, List.mem_append]
    intro hmem
    rcases hmem with hm | hm
    · exact escapeByteSeg_no_slash b (h b (by simp)) hm
    · exact ih (fun x hx => h x (by simp [hx])) hm

/-- `pathSeg` output contains no slash: the escaped id stays one path
component. -/
lemma pathSeg_no_slash (s : String) : ¬ '/' ∈ (pathSeg s).data :=
  escapeBytesSeg_no_slash _ (utf8Bytes_lt s.data)

/-- The single URL `GetMail` hands to the transport for a non-empty id. -/
lemma GetMail_log {γ : Type} (c : Client) (t : Transport γ) (dec : Dec GetMailResponse)
    (ctx : γ) (id : String) (h : id ≠ "") :
    (GetMail c t dec ctx id).2 = [c.baseURL ++ apiPathPrefix ++ "/mails/" ++ pathSeg id] := by
  simp only [GetMail, h, if_false, handleDo_snd, doCall_log]

/-- The single URL `GetTemplate` hands to the transport for a non-empty id. -/
lemma GetTemplate_log {γ : Type} (c : Client) (t : Transport γ) (dec : Dec GetTemplateResponse)
    (ctx : γ) (id : String) (h : id ≠ "") :
    (GetTemplate c t dec ctx id).2 = [c.baseURL ++ apiPathPrefix ++ "/templates/" ++ pathSeg id] := by
  simp only [GetTemplate, h, if_false, handleDo_snd, doCall_log]

/-- The single URL `GetAttachment` hands to the transport for a non-empty id. -/
lemma GetAttachment_log {γ : Type} (c : Client) (t : Transport γ) (dec : Dec GetAttachmentResponse)
    (ctx : γ) (id : String) (h : id ≠ "") :
    (GetAttachment c t dec ctx id).2 = [c.baseURL ++ apiPathPrefix ++ "/attachments/" ++ pathSeg id] := by
  simp only [GetAttachment, h, if_false, handleDo_snd, doCall_log]

/-- Claim C6: for every non-empty identifier, the get operations build their
URL by appending the percent-escaped id after the resource path; the escaped
id contains no `/`, so it is a single path segment; and an id containing `/`
and a space is escaped with `%2F` and `%20` (example `a b/c`). -/
theorem get_ops_escape_single_segment {γ : Type} (c : Client) (t : Transport γ)
    (decM : Dec GetMailResponse) (decT : Dec GetTemplateResponse)
    (decA : Dec GetAttachmentResponse) (ctx : γ) (id : String) (h : id ≠ "") :
    (GetMail c t decM ctx id).2 = [c.baseURL ++ apiPathPrefix ++ "/mails/" ++ pathSeg id]
  ∧ (GetTemplate c t decT ctx id).2 = [c.baseURL ++ apiPathPrefix ++ "/templates/" ++ pathSeg id]
  ∧ (GetAttachment c t decA ctx id).2 = [c.baseURL ++ apiPathPrefix ++ "/attachments/" ++ pathSeg id]
  ∧ ¬ '/' ∈ (pathSeg id).data
  ∧ pathSeg "a b/c" = "a%20b%2Fc" :=
  ⟨GetMail_log c t decM ctx id h, GetTemplate_log c t decT ctx id h,
   GetAttachment_log c t decA ctx id h, pathSeg_no_slash id, rfl⟩

/-- Witness for C6 at the concrete id `a b/c`. -/
theorem get_ops_escape_single_segment_witness :
    ("a b/c" ≠ "")
  ∧ (GetMail cW tNone (decFail GetMailResponse) ctxU "a b/c").2
      = ["http://h:1/api/v1/mails/a%20b%2Fc"] :=
  ⟨by decide, by
    rw [(get_ops_escape_single_segment cW tNone (decFail GetMailResponse)
      (decFail GetTemplateResponse) (decFail GetAttachmentResponse) ctxU "a b/c"
      (by decide)).1]
    rfl⟩

end MailerSdk

namespace MailerSdk

/-- Trimming trailing slashes absorbs an extra trailing slash. -/
lemma trimRightSlashes_append_slash (s : String) :
    trimRightSlashes (s ++ "/") = trimRightSlashes s := by
  unfold trimRightSlashes
  congr 1
  rw [String.data_append]
  have hd : ("/" : String).data = ['/'] := rfl
  rw [hd]
  simp [List.dropWhile]

/-- Appending a slash can never produce the empty string. -/
lemma append_slash_ne_empty (s : String) : s ++ "/" ≠ "" := by
  intro h
  have h2 := congrArg String.data h
  rw [String.data_append] at h2
  simp at h2

/-- `NewClient` behaves identically on a base URL with one extra trailing
slash. -/
lemma NewClient_trailing_slash (b : String) (tmo : Int) (hb : b ≠ "") :
    NewClient { BaseURL := b ++ "/", Timeout := tmo }
      = NewClient { BaseURL := b, Timeout := tmo } := by
  unfold NewClient
  rw [if_neg (append_slash_ne_empty b), if_neg hb, trimRightSlashes_append_slash]

/-- Claim C7: clients constructed from `b ++ "/"` and from `b` are equal, and
therefore every operation hands the transport identical request URLs under
the two clients (two-run equality of the built URLs). -/
theorem trailing_slash_same_urls {γ : Type} (b : String) (tmo : Int) (c c' : Client)
    (t : Transport γ) (ctx : γ)
    (decLM : Dec ListMailsResponse) (decGM : Dec GetMailResponse)
    (decLT : Dec ListTemplatesResponse) (decGT : Dec GetTemplateResponse)
    (decLA : Dec ListAttachmentsResponse) (decGA : Dec GetAttachmentResponse)
    (req : ListMailsRequest) (reqT : ListTemplatesRequest) (reqA : ListAttachmentsRequest)
    (qs id : String)
    (hb : b ≠ "")
    (h1 : (NewClient { BaseURL := b ++ "/", Timeout := tmo }).1 = some c)
    (h2 : (NewClient { BaseURL := b, Timeout := tmo }).1 = some c') :
    c = c'
  ∧ (ListMails c t decLM ctx req).2 = (ListMails c' t decLM ctx req).2
  ∧ (ListMailsWithQuery c t decLM ctx qs).2 = (ListMailsWithQuery c' t decLM ctx qs).2
  ∧ (GetMail c t decGM ctx id).2 = (GetMail c' t decGM ctx id).2
  ∧ (ListTemplates c t decLT ctx reqT).2 = (ListTemplates c' t decLT ctx reqT).2
  ∧ (ListTemplatesWithQuery c t decLT ctx qs).2 = (ListTemplatesWithQuery c' t decLT ctx qs).2
  ∧ (GetTemplate c t decGT ctx id).2 = (GetTemplate c' t decGT ctx id).2
  ∧ (ListAttachments c t decLA ctx reqA).2 = (ListAttachments c' t decLA ctx reqA).2
  ∧ (ListAttachmentsWithQuery c t decLA ctx qs).2 = (ListAttachmentsWithQuery c' t decLA ctx qs).2
  ∧ (GetAttachment c t decGA ctx id).2 = (GetAttachment c' t decGA ctx id).2 := by
  have hc : c = c' := by
    rw [NewClient_trailing_slash b tmo hb] at h1
    exact Option.some.inj (h1.symm.trans h2)
  subst hc
  exact ⟨rfl, rfl, rfl, rfl, rfl, rfl, rfl, rfl, rfl, rfl⟩

/-- Witness for C7 at the concrete base URL `http://h:1`. -/
theorem trailing_slash_same_urls_witness :
    ("http://h:1" ≠ "")
  ∧ (NewClient { BaseURL := "http://h:1/", Timeout := 0 }).1 = some cW
  ∧ (NewClient { BaseURL := "http://h:1", Timeout := 0 }).1 = some cW
  ∧ (GetMail cW tNone (decFail GetMailResponse) ctxU "x").2
      = (GetMail cW tNone (decFail GetMailResponse) ctxU "x").2 :=
  ⟨by decide, rfl, rfl,
   (trailing_slash_same_urls "http://h:1" 0 cW cW tNone ctxU
      (decFail ListMailsResponse) (decFail GetMailResponse)
      (decFail ListTemplatesResponse) (decFail GetTemplateResponse)
      (decFail ListAttachmentsResponse) (decFail GetAttachmentResponse)
      { Page := 0, PerPage := 0, Service := "", Type' := "", Status := "" }
      { Page := 0, PerPage := 0 } { Page := 0, PerPage := 0, MailID := "" }
      "" "x" (by decide) rfl rfl).2.2.2.1⟩

/-- Claim C8: construction fails exactly when the base URL is empty (and, in
the HMAC revision, also when the HMAC secret is empty); for every other
configuration it returns a client and no error.  `NewClient` receives no
transport, so the failure happens before any network capability exists. -/
theorem newClient_validation (cfg : Config) (cfgH : ConfigHMAC) :
    ((NewClient cfg).1.isSome ↔ cfg.BaseURL ≠ "")
  ∧ ((NewClient cfg).2.isSome ↔ cfg.BaseURL = "")
  ∧ (NewClient { BaseURL := "", Timeout := cfg.Timeout }
      = (none, some (.errorf "base URL is required")))
  ∧ ((NewClientHMAC cfgH).1.isSome ↔ (cfgH.BaseURL ≠ "" ∧ cfgH.HMACSecret ≠ ""))
  ∧ ((NewClientHMAC cfgH).2.isSome ↔ (cfgH.BaseURL = "" ∨ cfgH.HMACSecret = ""))
  ∧ (NewClientHMAC { BaseURL := "http://h:1", HMACSecret := "", Timeout := 0 }
      = (none, some (.errorf "HMAC secret is required"))) := by
  refine ⟨?_, ?_, rfl, ?_, ?_, rfl⟩ <;>
    by_cases hb : cfg.BaseURL = "" <;>
    by_cases hbh : cfgH.BaseURL = "" <;>
    by_cases hs : cfgH.HMACSecret = "" <;>
    simp [NewClient, NewClientHMAC, hb, hbh, hs]

/-- Claim C10: the constructed client's timeout is the 10-second default
exactly when the configured timeout is zero; any other value, including a
negative one, is passed through to the HTTP client unchanged. -/
theorem newClient_timeout_default (cfg : Config) (c : Client)
    (h : (NewClient cfg).1 = some c) :
    c.timeout = if cfg.Timeout = 0 then defaultTimeout else cfg.Timeout := by
  unfold NewClient at h
  by_cases hb : cfg.BaseURL = ""
  · rw [if_pos hb] at h
    simp at h
  · rw [if_neg hb] at h
    simp only at h
    rw [← Option.some.inj h]

/-- Witness for C10: a negative timeout (-5 ns) is kept, not replaced by the
default. -/
theorem newClient_timeout_default_witness :
    ((NewClient { BaseURL := "http://h:1", Timeout := -5 }).1
        = some { baseURL := "http://h:1", timeout := -5 })
  ∧ ({ baseURL := "http://h:1", timeout := -5 } : Client).timeout
      = (if (-5 : Int) = 0 then defaultTimeout else (-5 : Int))
  ∧ ((-5 : Int) < 0) :=
  ⟨rfl, newClient_timeout_default { BaseURL := "http://h:1", Timeout := -5 }
      { baseURL := "http://h:1", timeout := -5 } rfl, by decide⟩

end MailerSdk

namespace MailerSdk

/-- Exactly one of a Go `(result, err)` pair is non-nil. -/
def exactlyOne {α β : Type} (a : Option α) (b : Option β) : Prop :=
  (a.isSome ∧ b = none) ∨ (a = none ∧ b.isSome)

/-- The `(result, err)` pair produced by the shared operation tail is
exclusive whenever a decoder was supplied. -/
lemma handleDo_exactlyOne {γ α : Type} (t : Transport γ) (ctx : γ) (method url : String)
    (ss : List Int) (dec : Dec α) (w : String) :
    exactlyOne (handleDo (doCall t ctx method url ss (some dec) w)).1.1
      (handleDo (doCall t ctx method url ss (some dec) w)).1.2 := by
  rcases hdo : doCall t ctx method url ss (some dec) w with ⟨r, log⟩
  cases r with
  | error e => right; simp [handleDo, hdo]
  | ok v =>
    have hv : v.isSome := doCall_ok_isSome t ctx method url ss dec w v (by rw [hdo])
    left
    simp [handleDo, hdo, hv]

/-- Claim C9: for `NewClient` (both revisions) and for every list and get
operation, on every input exactly one of the returned result and the
returned error is non-nil. -/
theorem ops_result_error_exclusive {γ : Type} (cfg : Config) (cfgH : ConfigHMAC)
    (c : Client) (t : Transport γ) (ctx : γ)
    (decLM : Dec ListMailsResponse) (decGM : Dec GetMailResponse)
    (decLT : Dec ListTemplatesResponse) (decGT : Dec GetTemplateResponse)
    (decLA : Dec ListAttachmentsResponse) (decGA : Dec GetAttachmentResponse)
    (req : ListMailsRequest) (reqT : ListTemplatesRequest) (reqA : ListAttachmentsRequest)
    (qs id : String) :
    exactlyOne (NewClient cfg).1 (NewClient cfg).2
  ∧ exactlyOne (NewClientHMAC cfgH).1 (NewClientHMAC cfgH).2
  ∧ exactlyOne (ListMails c t decLM ctx req).1.1 (ListMails c t decLM ctx req).1.2
  ∧ exactlyOne (ListMailsWithQuery c t decLM ctx qs).1.1 (ListMailsWithQuery c t decLM ctx qs).1.2
  ∧ exactlyOne (GetMail c t decGM ctx id).1.1 (GetMail c t decGM ctx id).1.2
  ∧ exactlyOne (ListTemplates c t decLT ctx reqT).1.1 (ListTemplates c t decLT ctx reqT).1.2
  ∧ exactlyOne (ListTemplatesWithQuery c t decLT ctx qs).1.1
      (ListTemplatesWithQuery c t decLT ctx qs).1.2
  ∧ exactlyOne (GetTemplate c t decGT ctx id).1.1 (GetTemplate c t decGT ctx id).1.2
  ∧ exactlyOne (ListAttachments c t decLA ctx reqA).1.1 (ListAttachments c t decLA ctx reqA).1.2
  ∧ exactlyOne (ListAttachmentsWithQuery c t decLA ctx qs).1.1
      (ListAttachmentsWithQuery c t decLA ctx qs).1.2
  ∧ exactlyOne (GetAttachment c t decGA ctx id).1.1 (GetAttachment c t decGA ctx id).1.2 := by
  refine ⟨?_, ?_, ?_, ?_, ?_, ?_, ?_, ?_, ?_, ?_, ?_⟩
  · by_cases hb : cfg.BaseURL = "" <;> simp [NewClient, hb, exactlyOne]
  · by_cases hb : cfgH.BaseURL = "" <;> by_cases hs : cfgH.HMACSecret = "" <;>
      simp [NewClientHMAC, hb, hs, exactlyOne]
  · simp only [ListMails]
    exact handleDo_exactlyOne _ _ _ _ _ _ _
  · simp only [ListMailsWithQuery]
    exact handleDo_exactlyOne _ _ _ _ _ _ _
  · by_cases hid : id = ""
    · simp [GetMail, hid, exactlyOne]
    · simp only [GetMail, hid, if_false]
      exact handleDo_exactlyOne _ _ _ _ _ _ _
  · simp only [ListTemplates]
    exact handleDo_exactlyOne _ _ _ _ _ _ _
  · simp only [ListTemplatesWithQuery]
    exact handleDo_exactlyOne _ _ _ _ _ _ _
  · by_cases hid : id = ""
    · simp [GetTemplate, hid, exactlyOne]
    · simp only [GetTemplate, hid, if_false]
      exact handleDo_exactlyOne _ _ _ _ _ _ _
  · simp only [ListAttachments]
    exact handleDo_exactlyOne _ _ _ _ _ _ _
  · simp only [ListAttachmentsWithQuery]
    exact handleDo_exactlyOne _ _ _ _ _ _ _
  · by_cases hid : id = ""
    · simp [GetAttachment, hid, exactlyOne]
    · simp only [GetAttachment, hid, if_false]
      exact handleDo_exactlyOne _ _ _ _ _ _ _

end MailerSdk
